import Mathlib

/-!
# ThreatRadar — verification of the aggregation-engine spec against the code

Shallow embedding of the ThreatRadar repository (frontend sources under
`src/frontend` and the unnamed component files) together with a model of the
aggregation engine reconstructed from the specification (the engine itself is
not part of the visible repository; every such definition is marked
`Modelled from the spec:`).  JavaScript numbers are embedded as `Int`/`ℚ`,
JavaScript `Set` as `Finset`, arrays as `List`.
-/

namespace ThreatRadar

/-- IOC type, from `src/frontend/src/types/threat.ts` (`IOCType`). -/
inductive IOCType
  | ip | domain | hash | url | email
deriving DecidableEq, Repr

/-- Threat level, from `src/frontend/src/types/threat.ts` (`ThreatLevel`). -/
inductive ThreatLevel
  | critical | high | medium | low | info
deriving DecidableEq, Repr

/-- Wire name of an IOC type (snake_case strings on the wire). -/
def IOCType.str : IOCType → String
  | .ip => "ip" | .domain => "domain" | .hash => "hash" | .url => "url" | .email => "email"

/-- Models a JavaScript `Date` produced by `new Date(isoString)`: the instant
denoted by the ISO-8601 string it was parsed from. -/
structure JSDate where
  iso : String
deriving DecidableEq, Repr

/-- Models `new Date(s)` applied to an ISO-8601 timestamp string. -/
def parseDate (s : String) : JSDate := ⟨s⟩

/-- Models `Date.prototype.getTime` at the level of detail the claims need: a
deterministic numeric view of the date.  On canonical zero-padded UTC ISO-8601
strings the concatenated digit value is order-isomorphic to epoch
milliseconds, which is all the comparator in `ThreatTable` relies on. -/
def JSDate.getTime (d : JSDate) : Int :=
  ((d.iso.foldl (fun n c => if c.isDigit then n * 10 + (c.toNat - 48) else n) 0 : Nat) : Int)

/-! ## Wire records (REST contract, §6) and the `api.ts` transforms -/

/-- One element of the `GET /indicators` response body (snake_case wire shape,
§6 of the spec): `{id, value, type, threat_level, score, sources[], first_seen,
last_seen, tags[], description?, correlations?[]}`. -/
structure WireIndicator where
  id : String
  value : String
  type : IOCType
  threat_level : ThreatLevel
  score : Int
  sources : List String
  first_seen : String
  last_seen : String
  tags : List String
  description : Option String
  correlations : Option (List String)
deriving DecidableEq, Repr

/-- Frontend `ThreatIndicator` record, from `src/frontend/src/types/threat.ts`. -/
structure ThreatIndicator where
  id : String
  value : String
  type : IOCType
  threatLevel : ThreatLevel
  score : Int
  sources : List String
  firstSeen : JSDate
  lastSeen : JSDate
  tags : List String
  description : Option String
  correlations : Option (List String)
deriving DecidableEq, Repr

/-- The per-element transform applied by `fetchIndicators`
(`src/frontend/src/services/api.ts`, the `data.map` body, lines 57–69). -/
def fetchIndicatorsTransform (w : WireIndicator) : ThreatIndicator :=
  { id := w.id
    value := w.value
    type := w.type
    threatLevel := w.threat_level
    score := w.score
    sources := w.sources
    firstSeen := parseDate w.first_seen
    lastSeen := parseDate w.last_seen
    tags := w.tags
    description := w.description
    correlations := w.correlations }

/-- The transform applied by `fetchIndicatorById`
(`src/frontend/src/services/api.ts`, lines 109–121). -/
def fetchIndicatorByIdTransform (w : WireIndicator) : ThreatIndicator :=
  { id := w.id
    value := w.value
    type := w.type
    threatLevel := w.threat_level
    score := w.score
    sources := w.sources
    firstSeen := parseDate w.first_seen
    lastSeen := parseDate w.last_seen
    tags := w.tags
    description := w.description
    correlations := w.correlations }

/-- The whole-body transform of `fetchIndicators`: `data.map (...)`. -/
def fetchIndicatorsBody (l : List WireIndicator) : List ThreatIndicator :=
  l.map fetchIndicatorsTransform

/-! ## `apiFetch` error handling (api.ts lines 10–29) -/

/-- The part of a `fetch` `Response` that `apiFetch` inspects. -/
structure HttpResponse (α : Type) where
  ok : Bool
  status : Nat
  statusText : String
  body : α
deriving DecidableEq, Repr

/-- The message of the `Error` thrown by `apiFetch` on a non-ok response:
`` `API error: ${response.status} ${response.statusText}` ``. -/
def apiErrorMessage (status : Nat) (statusText : String) : String :=
  "API error: " ++ toString status ++ " " ++ statusText

/-- Models `apiFetch` (`src/frontend/src/services/api.ts`, lines 10–29): on a
non-ok response it throws an `Error` carrying the status (the `catch` block
only logs and rethrows), otherwise it returns the parsed body. -/
def apiFetch {α : Type} (r : HttpResponse α) : Except String α :=
  if r.ok then Except.ok r.body
  else Except.error (apiErrorMessage r.status r.statusText)

/-- Models `fetchIndicatorById` (`api.ts` lines 106–122): `apiFetch` on
`/indicators/{id}` followed by the field transform; an exception from
`apiFetch` propagates, so the transform runs only on an ok body. -/
def fetchIndicatorByIdResult (r : HttpResponse WireIndicator) :
    Except String ThreatIndicator :=
  (apiFetch r).map fetchIndicatorByIdTransform

/-! ## `ThreatTable` score colouring (unnamed/part_001) -/

/-- The `getScoreColor` helper of `ThreatTable` (`src/unnamed/part_001`, lines 60–66). -/
def getScoreColor (score : Int) : String :=
  if score ≥ 80 then "text-destructive"
  else if score ≥ 60 then "text-orange-400"
  else if score ≥ 40 then "text-warning"
  else if score ≥ 20 then "text-primary"
  else "text-accent"

/-- The score-bar colour branches of `ThreatTable`
(`src/unnamed/part_001`, lines 177–180). -/
def scoreBarColor (score : Int) : String :=
  if score ≥ 80 then "bg-destructive"
  else if score ≥ 60 then "bg-orange-500"
  else if score ≥ 40 then "bg-warning"
  else if score ≥ 20 then "bg-primary"
  else "bg-accent"

/-- Modelled from the spec: the Scorer's bucket function (§4.4), which is not
part of the visible repository: `score>=80→critical`, `>=60→high`,
`>=40→medium`, `>=20→low`, else `info`. -/
def levelOfScore (score : Int) : ThreatLevel :=
  if score ≥ 80 then .critical
  else if score ≥ 60 then .high
  else if score ≥ 40 then .medium
  else if score ≥ 20 then .low
  else .info

/-- The text colour `ThreatTable` associates with each threat-level bucket
(matching its Badge variants: destructive/orange/warning/primary/accent). -/
def colorOfLevel : ThreatLevel → String
  | .critical => "text-destructive"
  | .high => "text-orange-400"
  | .medium => "text-warning"
  | .low => "text-primary"
  | .info => "text-accent"

/-- The bar colour associated with each threat-level bucket. -/
def barColorOfLevel : ThreatLevel → String
  | .critical => "bg-destructive"
  | .high => "bg-orange-500"
  | .medium => "bg-warning"
  | .low => "bg-primary"
  | .info => "bg-accent"

/-! ## `toggleRowExpansion` (unnamed/part_001, lines 68–78) -/

/-- Models `toggleRowExpansion`: copy the previous `Set`, delete `id` if
present, otherwise add it, and store the result. -/
def toggleRowExpansion (id : String) (prev : Finset String) : Finset String :=
  if id ∈ prev then prev.erase id else insert id prev

/-! ## Aggregation core (Modelled from the spec: the engine is not part of the
visible repository; §§3–4.8 of the spec are the authority) -/

/-- Modelled from the spec: static per-feed configuration the Scorer consults
(§4.4): feed reliability 1–5 per feed name. -/
structure Config where
  reliability : String → Nat

/-- Modelled from the spec: high-severity tag signals (§4.4). -/
def highSeverityTags : List String := ["malware", "c2", "ransomware"]

/-- Modelled from the spec: low-severity tag signals (§4.4). -/
def lowSeverityTags : List String := ["tor-exit", "scanner"]

/-- Modelled from the spec: the Scorer (§4.4), not part of the visible
repository.  A pure function of the indicator's sources and tags: base rises
with the number of distinct reporting sources and the maximum reliability
among them; high-severity tags shift the score up and low-severity tags down,
within the 0–100 bounds.  The recency adjustment is omitted: it depends on a
wall-clock staleness window and no claim depends on concrete score values. -/
def scoreOf (cfg : Config) (sources tags : Finset String) : Int :=
  let corroboration : Int := 15 * sources.card
  let reliab : Int := 5 * sources.sup cfg.reliability
  let up : Int := 10 * (tags.filter (fun t => t ∈ highSeverityTags)).card
  let down : Int := 5 * (tags.filter (fun t => t ∈ lowSeverityTags)).card
  max 0 (min 100 (10 + corroboration + reliab + up - down))

/-- Modelled from the spec: a normalized `Indicator` draft produced by the
Normalizer (§4.2): detected type, normalized value, source feed name,
deduplicated tags, the observation timestamp (`firstSeen`/`lastSeen` both
start there), and optional description. -/
structure Draft where
  type : IOCType
  value : String
  source : String
  tags : Finset String
  timestamp : Nat
  description : Option String
deriving DecidableEq

/-- Modelled from the spec: the canonical `Indicator` record (§3). -/
structure Indicator where
  id : Nat
  type : IOCType
  value : String
  threatLevel : ThreatLevel
  score : Int
  sources : Finset String
  firstSeen : Nat
  lastSeen : Nat
  tags : Finset String
  description : Option String
  correlations : Finset Nat
deriving DecidableEq

/-- Modelled from the spec: recompute `score`/`threatLevel` from the current
fields after every merge (§4.3, §4.4). -/
def rescore (cfg : Config) (i : Indicator) : Indicator :=
  { i with
    score := scoreOf cfg i.sources i.tags
    threatLevel := levelOfScore (scoreOf cfg i.sources i.tags) }

/-- Modelled from the spec: creation of a new `Indicator` on first observation
of a `(type, value)` (§4.3): fresh id, draft fields copied,
`sources = {draft.source}`. -/
def freshIndicator (cfg : Config) (d : Draft) (nid : Nat) : Indicator :=
  rescore cfg
    { id := nid
      type := d.type
      value := d.value
      threatLevel := .info
      score := 0
      sources := {d.source}
      firstSeen := d.timestamp
      lastSeen := d.timestamp
      tags := d.tags
      description := d.description
      correlations := ∅ }

/-- Modelled from the spec: merging a draft into the existing record with the
same `(type, value)` (§4.3): union sources and tags, `firstSeen = min`,
`lastSeen = max`, replace the description only by a non-empty draft
description, then rescore. -/
def mergeInto (cfg : Config) (i : Indicator) (d : Draft) : Indicator :=
  rescore cfg
    { i with
      sources := insert d.source i.sources
      tags := i.tags ∪ d.tags
      firstSeen := min i.firstSeen d.timestamp
      lastSeen := max i.lastSeen d.timestamp
      description :=
        match d.description with
        | some s => if s = "" then i.description else some s
        | none => i.description }

/-- Whether the draft's `(type, value)` identity key matches the record's. -/
def draftMatches (d : Draft) (i : Indicator) : Bool :=
  i.type = d.type ∧ i.value = d.value

/-- Modelled from the spec: the Store's keyed update — merge the draft into
the first (and, by the identity invariant, only) record with its key, or
report `none` when the key is absent (§4.3, §4.6). -/
def mergeIntoList (cfg : Config) (d : Draft) : List Indicator → Option (List Indicator)
  | [] => none
  | i :: rest =>
    if draftMatches d i then some (mergeInto cfg i d :: rest)
    else (mergeIntoList cfg d rest).map (i :: ·)

/-- Modelled from the spec: the Indicator Store (§4.6): the canonical record
collection plus the next fresh surrogate id. -/
structure Store where
  inds : List Indicator
  nextId : Nat
deriving DecidableEq

/-- The empty Store. -/
def Store.empty : Store := ⟨[], 0⟩

/-- Modelled from the spec: the Merge Engine entry point (§4.3):
`merge(draft, store)` — update in place when `(type, value)` is present,
otherwise append a new record with a freshly minted id. -/
def Store.merge (cfg : Config) (s : Store) (d : Draft) : Store :=
  match mergeIntoList cfg d s.inds with
  | some l => ⟨l, s.nextId⟩
  | none => ⟨s.inds ++ [freshIndicator cfg d s.nextId], s.nextId + 1⟩

/-! ### Correlator (Modelled from the spec, §4.5) -/

/-- Modelled from the spec: the hostname component of a URL value (§4.5(a)):
the part after the scheme, up to the first `/`, `?` or `:`. -/
def hostOf (u : String) : String :=
  let rest :=
    if u.startsWith "https://" then u.drop 8
    else if u.startsWith "http://" then u.drop 7
    else u
  ((((rest.splitOn "/").headD "").splitOn "?").headD "").splitOn ":" |>.headD ""

/-- Modelled from the spec: the directed candidate-relation rules (§4.5):
(a) a url whose hostname equals a domain's value; (b) at least two shared
tags; (c) a domain/ip pair linked via an explicit resolution tag. -/
def RelDir (a b : Indicator) : Prop :=
  (a.type = .url ∧ b.type = .domain ∧ hostOf a.value = b.value)
  ∨ 2 ≤ (a.tags ∩ b.tags).card
  ∨ (a.type = .domain ∧ b.type = .ip ∧ ("resolves:" ++ b.value) ∈ a.tags)

instance (a b : Indicator) : Decidable (RelDir a b) := by
  unfold RelDir; infer_instance

/-- Modelled from the spec: the symmetric closure of the rules — every
discovered pair is linked in both directions (§4.5). -/
def Related (a b : Indicator) : Prop := RelDir a b ∨ RelDir b a

instance (a b : Indicator) : Decidable (Related a b) := by
  unfold Related; infer_instance

/-- Modelled from the spec: the correlation set recomputed from scratch for
one record — the ids of all other related records in the settled store
(§4.5). -/
def correlationsFor (l : List Indicator) (a : Indicator) : Finset Nat :=
  ((l.filter (fun b => decide (b.id ≠ a.id ∧ Related a b))).map (fun b => b.id)).toFinset

/-- Modelled from the spec: one correlation pass (§4.5): recompute every
record's `correlations` from scratch over the settled post-merge store and
apply the delta atomically. -/
def correlatePass (s : Store) : Store :=
  ⟨s.inds.map (fun a => { a with correlations := correlationsFor s.inds a }), s.nextId⟩

/-- The identity key of a record: `(type, value)` (§3's identity invariant). -/
def keyOf (i : Indicator) : IOCType × String := (i.type, i.value)

/-! ### Reachable store states -/

/-- A store state reachable by the system: from empty, by Merge Engine merges
and Correlator passes (§4.6: mutation is only performed by these). -/
inductive Reachable (cfg : Config) : Store → Prop
  | empty : Reachable cfg Store.empty
  | merge {s : Store} (d : Draft) : Reachable cfg s → Reachable cfg (s.merge cfg d)
  | correlate {s : Store} : Reachable cfg s → Reachable cfg (correlatePass s)

/-! ### Statistics Aggregator (Modelled from the spec, §4.8) -/

/-- Frontend `ThreatStats` record, from `src/frontend/src/types/threat.ts`. -/
structure ThreatStats where
  totalIndicators : Nat
  criticalCount : Nat
  highCount : Nat
  mediumCount : Nat
  lowCount : Nat
  infoCount : Nat
  activeFeeds : Nat
  correlatedIOCs : Nat
  last24hNew : Nat
deriving DecidableEq, Repr

/-- Count of store records at a given threat level. -/
def countLevel (l : List Indicator) (lv : ThreatLevel) : Nat :=
  l.countP (fun i => i.threatLevel = lv)

/-- Modelled from the spec: the Statistics Aggregator (§4.8) — a pure
read-side computation over the current store: total and per-level counts and
`correlatedIOCs` from the indicator set; `activeFeeds` and `last24hNew`
depend on feed bookkeeping and the wall clock and are passed through. -/
def statsOf (s : Store) (activeFeeds last24hNew : Nat) : ThreatStats :=
  { totalIndicators := s.inds.length
    criticalCount := countLevel s.inds .critical
    highCount := countLevel s.inds .high
    mediumCount := countLevel s.inds .medium
    lowCount := countLevel s.inds .low
    infoCount := countLevel s.inds .info
    activeFeeds := activeFeeds
    correlatedIOCs := (s.inds.filter (fun i => i.correlations ≠ ∅)).length
    last24hNew := last24hNew }

/-- The exact-arithmetic idealization of the five percentages of
`ThreatLevelChart` (`src/frontend/src/components/ThreatLevelChart.tsx`,
lines 10–16): the real-number values of `(count / total) * 100` for critical,
high, medium, low, info.  The program itself computes in IEEE-754 binary64;
the faithful embedding of that computation is `chartPercentagesFloat`
below. -/
def chartPercentagesExact (st : ThreatStats) : List ℚ :=
  [ (st.criticalCount : ℚ) / st.totalIndicators * 100
  , (st.highCount : ℚ) / st.totalIndicators * 100
  , (st.mediumCount : ℚ) / st.totalIndicators * 100
  , (st.lowCount : ℚ) / st.totalIndicators * 100
  , (st.infoCount : ℚ) / st.totalIndicators * 100 ]

/-! ### Binary64 model of the chart's percentage arithmetic

JavaScript numbers are IEEE-754 binary64.  The following model captures
round-to-nearest, ties-to-even rounding of positive quotients to 53
significant bits, which is exactly the rounding `(count / total) * 100`
undergoes for the chart's values (integral counts below `2 ^ 53` are exact
as doubles, and the intermediate values stay far inside the normal finite
range, so overflow and subnormals never arise). -/

/-- Bit length of a natural number, by fuel-bounded structural recursion so
that it evaluates in the kernel; exact for inputs below `2 ^ 1200`, far above
every value these computations produce. -/
def bitLenAux : Nat → Nat → Nat
  | 0, _ => 0
  | fuel + 1, n => if n = 0 then 0 else bitLenAux fuel (n / 2) + 1

/-- Bit length: `bitLen n = ⌊log₂ n⌋ + 1` for `n > 0`, and `0` at `0`. -/
def bitLen (n : Nat) : Nat := bitLenAux 1200 n

/-- Decides `n / d ≥ 2 ^ e` for naturals `n`, `d > 0` and an integer `e`. -/
def natGeScaled (n d : Nat) (e : Int) : Bool :=
  if 0 ≤ e then d * 2 ^ e.toNat ≤ n else d ≤ n * 2 ^ (-e).toNat

/-- Round `N / D` (with `D > 0`) to the nearest integer, ties to even. -/
def roundScaled (N D : Nat) : Nat :=
  let m := N / D
  let r2 := 2 * (N % D)
  if D < r2 then m + 1
  else if r2 < D then m
  else if m % 2 = 0 then m else m + 1

/-- A positive finite binary64 value `m · 2 ^ (ex - 52)` with
`2 ^ 52 ≤ m ≤ 2 ^ 53` (the upper bound occurs transiently after a rounding
carry and denotes the same real value). -/
structure F64 where
  m : Nat
  ex : Int
deriving DecidableEq, Repr

/-- The exact rational value of a positive finite double. -/
def F64.toRat (f : F64) : ℚ :=
  if 52 ≤ f.ex then ((f.m * 2 ^ (f.ex - 52).toNat : Nat) : ℚ)
  else (f.m : ℚ) / ((2 ^ (52 - f.ex).toNat : Nat) : ℚ)

/-- Binary64 rounding (round to nearest, ties to even, 53 significant bits)
of the quotient `n / d` of naturals with `d > 0`, in the normal finite
range; `none` encodes the double `0` (arising only from `n = 0`). -/
def flPair (n d : Nat) : Option F64 :=
  if n = 0 then none
  else
    let e0 : Int := (bitLen n : Int) - (bitLen d : Int)
    let ex := if natGeScaled n d e0 then e0 else e0 - 1
    let s : Int := 52 - ex
    if 0 ≤ s then some ⟨roundScaled (n * 2 ^ s.toNat) d, ex⟩
    else some ⟨roundScaled n (d * 2 ^ (-s).toNat), ex⟩

/-- Models the JavaScript expression `(c / t) * 100` evaluated in binary64:
the division is rounded, then the product of the rounded quotient with the
(exactly representable) constant `100` is rounded again; the result is
returned as the exact rational value of the final double. -/
def jsPercent (c t : Nat) : ℚ :=
  match flPair c t with
  | none => 0
  | some f =>
    match
      (if 52 ≤ f.ex then flPair (f.m * 100 * 2 ^ (f.ex - 52).toNat) 1
       else flPair (f.m * 100) (2 ^ (52 - f.ex).toNat)) with
    | none => 0
    | some g => g.toRat

/-- The five percentages `(count / total) * 100` exactly as
`ThreatLevelChart` computes them in IEEE-754 binary64 arithmetic. -/
def chartPercentagesFloat (st : ThreatStats) : List ℚ :=
  [ jsPercent st.criticalCount st.totalIndicators
  , jsPercent st.highCount st.totalIndicators
  , jsPercent st.mediumCount st.totalIndicators
  , jsPercent st.lowCount st.totalIndicators
  , jsPercent st.infoCount st.totalIndicators ]

/-! ## `ThreatTable` sorting (unnamed/part_001, lines 12–48) -/

/-- The `SortField` type of `ThreatTable` (`src/unnamed/part_001`, line 12). -/
inductive SortField
  | score | lastSeen | type | threatLevel
deriving DecidableEq, Repr

/-- The `SortDirection` type of `ThreatTable` (`src/unnamed/part_001`, line 13). -/
inductive SortDirection
  | asc | desc
deriving DecidableEq, Repr

/-- The `levelOrder` table inside the comparator (`part_001`, line 43). -/
def levelOrder : ThreatLevel → Int
  | .critical => 5 | .high => 4 | .medium => 3 | .low => 2 | .info => 1

/-- Models `String.prototype.localeCompare` as lexicographic three-way
comparison (the default locale collation on plain ASCII type names). -/
def localeCompare (a b : String) : Int :=
  if a < b then -1 else if b < a then 1 else 0

/-- The `comparison` value of `ThreatTable`'s sort callback
(`part_001`, lines 31–46). -/
def comparison (field : SortField) (a b : ThreatIndicator) : Int :=
  match field with
  | .score => a.score - b.score
  | .lastSeen => a.lastSeen.getTime - b.lastSeen.getTime
  | .type => localeCompare a.type.str b.type.str
  | .threatLevel => levelOrder a.threatLevel - levelOrder b.threatLevel

/-- The full comparator: `sortDirection === 'asc' ? comparison : -comparison`
(`part_001`, line 47). -/
def jsComparator (field : SortField) (dir : SortDirection)
    (a b : ThreatIndicator) : Int :=
  if dir = .asc then comparison field a b else -comparison field a b

/-- Stable insertion of `x` into an already processed list: `x` goes before
the first element it strictly precedes under the comparator, hence after
every earlier element that compares equal. -/
def stableInsert {α : Type} (cmp : α → α → Int) (x : α) : List α → List α
  | [] => [x]
  | y :: ys => if cmp x y < 0 then x :: y :: ys else y :: stableInsert cmp x ys

/-- Models `Array.prototype.sort(cmp)` on `[...indicators]`: ECMAScript
guarantees a stable sort consistent with the comparator, modelled here as a
stable insertion sort. -/
def jsSort {α : Type} (cmp : α → α → Int) (l : List α) : List α :=
  l.foldl (fun acc x => stableInsert cmp x acc) []

/-- The `sortedIndicators` value of `ThreatTable` (`part_001`, lines 30–48) for a given
sort field and direction. -/
def sortedIndicators (field : SortField) (dir : SortDirection)
    (inds : List ThreatIndicator) : List ThreatIndicator :=
  jsSort (jsComparator field dir) inds

/-- The `sortedIndicators` value under the initial state: `useState<SortField>('score')`
and `useState<SortDirection>('desc')` (`part_001`, lines 16–17). -/
def sortedIndicatorsDefault (inds : List ThreatIndicator) : List ThreatIndicator :=
  sortedIndicators .score .desc inds

/-! ## Feeds: wire shape, `fetchFeeds` and `FeedStatus` -/

/-- One element of the `GET /feeds` response body (§6):
`{id, name, description, url, last_updated, indicator_count, status,
reliability}`; `indicator_count` is `Option` to model the field being missing
or `null` on the wire. -/
structure WireFeed where
  id : String
  name : String
  description : String
  url : String
  last_updated : String
  indicator_count : Option Int
  status : String
  reliability : Int
deriving DecidableEq, Repr

/-- Frontend `ThreatFeed` record, from `src/frontend/src/types/threat.ts`. -/
structure ThreatFeed where
  id : String
  name : String
  description : String
  url : String
  lastUpdated : JSDate
  indicatorCount : Int
  status : String
  reliability : Int
deriving DecidableEq, Repr

/-- Models the JavaScript expression `x || 0` on a possibly-absent numeric
field: `undefined`, `null` and `0` are falsy and give `0`; any other number
passes through. -/
def jsOrZeroOpt : Option Int → Int
  | none => 0
  | some n => if n = 0 then 0 else n

/-- Models `n || 0` on a number that is always present. -/
def jsOrZero (n : Int) : Int := if n = 0 then 0 else n

/-- The per-element transform of `fetchFeeds`
(`src/frontend/src/services/api.ts`, lines 76–85); note
`indicatorCount: feed.indicator_count || 0`. -/
def fetchFeedsTransform (w : WireFeed) : ThreatFeed :=
  { id := w.id
    name := w.name
    description := w.description
    url := w.url
    lastUpdated := parseDate w.last_updated
    indicatorCount := jsOrZeroOpt w.indicator_count
    status := w.status
    reliability := w.reliability }

/-- The IOC count `FeedStatus` renders:
`(feed.indicatorCount || 0).toLocaleString()` (`src/unnamed/part_000`,
line 55). -/
def feedStatusIocCount (f : ThreatFeed) : Int := jsOrZero f.indicatorCount

/-! ## Sample inputs used by witnesses -/

/-- A concrete wire indicator used to instantiate witnesses. -/
def sampleWire : WireIndicator :=
  { id := "ioc-7"
    value := "evil.example"
    type := .domain
    threat_level := .high
    score := 72
    sources := ["OTX-mock"]
    first_seen := "2024-01-02T03:04:05Z"
    last_seen := "2024-02-02T03:04:05Z"
    tags := ["c2", "malware"]
    description := some "command and control"
    correlations := some ["ioc-9"] }

/-- A concrete wire feed whose `indicator_count` is absent. -/
def sampleFeedNoCount : WireFeed :=
  { id := "feed-1"
    name := "OTX-mock"
    description := "mock feed"
    url := "https://otx.example"
    last_updated := "2024-02-02T03:04:05Z"
    indicator_count := none
    status := "active"
    reliability := 4 }

/-- A concrete reliability configuration for witnesses. -/
def sampleConfig : Config := ⟨fun _ => 3⟩

/-- A concrete IP draft reported by a mock feed. -/
def draft1 : Draft :=
  { type := .ip
    value := "1.2.3.4"
    source := "OTX-mock"
    tags := {"scanner"}
    timestamp := 100
    description := none }

/-- A concrete domain draft reported by a second feed. -/
def draft2 : Draft :=
  { type := .domain
    value := "evil.example"
    source := "Mock-B"
    tags := {"c2"}
    timestamp := 200
    description := some "bad domain" }

/-- A concrete url indicator whose hostname matches `sampleDomInd`. -/
def sampleUrlInd : Indicator :=
  { id := 0
    type := .url
    value := "http://evil.example/x"
    threatLevel := .info
    score := 0
    sources := {"OTX-mock"}
    firstSeen := 100
    lastSeen := 100
    tags := ∅
    description := none
    correlations := ∅ }

/-- A concrete domain indicator correlated with `sampleUrlInd`. -/
def sampleDomInd : Indicator :=
  { id := 1
    type := .domain
    value := "evil.example"
    threatLevel := .info
    score := 0
    sources := {"Mock-B"}
    firstSeen := 150
    lastSeen := 150
    tags := ∅
    description := none
    correlations := ∅ }

/-- A concrete settled store holding the url/domain pair. -/
def sampleStore3 : Store := ⟨[sampleUrlInd, sampleDomInd], 2⟩

/-- The url record after the correlation pass over `sampleStore3`. -/
def corrUrlInd : Indicator :=
  { sampleUrlInd with correlations := correlationsFor sampleStore3.inds sampleUrlInd }

/-- The domain record after the correlation pass over `sampleStore3`. -/
def corrDomInd : Indicator :=
  { sampleDomInd with correlations := correlationsFor sampleStore3.inds sampleDomInd }

/-- A concrete critical indicator. -/
def indCrit : Indicator :=
  { id := 10
    type := .ip
    value := "9.9.9.9"
    threatLevel := .critical
    score := 90
    sources := {"OTX-mock"}
    firstSeen := 0
    lastSeen := 0
    tags := ∅
    description := none
    correlations := ∅ }

/-- A concrete high-severity indicator. -/
def indHigh : Indicator :=
  { indCrit with id := 11, value := "8.8.8.8", threatLevel := .high, score := 70 }

/-- A concrete medium-severity indicator. -/
def indMed : Indicator :=
  { indCrit with id := 12, value := "7.7.7.7", threatLevel := .medium, score := 50 }

/-- A store with three indicators, one critical, one high, one medium — the
statistics counts are (1,1,1,0,0) with total 3. -/
def sampleStoreThree : Store := ⟨[indCrit, indHigh, indMed], 13⟩

/-- A concrete displayed row with id `"z"` and score 50. -/
def rowZ : ThreatIndicator :=
  { id := "z"
    value := "1.2.3.4"
    type := .ip
    threatLevel := .medium
    score := 50
    sources := ["OTX-mock"]
    firstSeen := parseDate "2024-01-01T00:00:00Z"
    lastSeen := parseDate "2024-01-02T00:00:00Z"
    tags := []
    description := none
    correlations := none }

/-- A concrete displayed row with id `"a"` and the same score 50. -/
def rowA : ThreatIndicator := { rowZ with id := "a" }

/-! # Theorems -/

/-- C5: for every score, the threat-level bucket is given by the fixed
thresholds `score>=80→critical`, `>=60→high`, `>=40→medium`, `>=20→low`,
else `info`, and `ThreatTable`'s `getScoreColor` and score-bar colour
branches partition the scores at exactly these boundaries, agreeing with the
bucket order. -/
theorem claim_C5_score_buckets (score : Int) :
    levelOfScore score =
      (if score ≥ 80 then ThreatLevel.critical
       else if score ≥ 60 then ThreatLevel.high
       else if score ≥ 40 then ThreatLevel.medium
       else if score ≥ 20 then ThreatLevel.low
       else ThreatLevel.info)
    ∧ getScoreColor score = colorOfLevel (levelOfScore score)
    ∧ scoreBarColor score = barColorOfLevel (levelOfScore score) := by
  refine ⟨rfl, ?_, ?_⟩ <;>
    · simp only [getScoreColor, scoreBarColor, levelOfScore]
      split_ifs <;> rfl

/-- C6: `fetchIndicators` and `fetchIndicatorById` apply the identical
snake_case→camelCase transform to a wire record: `id`, `value`, `type`,
`score`, `sources`, `tags`, `description` and `correlations` are preserved
unchanged, `threat_level` becomes `threatLevel`, and `first_seen`/`last_seen`
are parsed from ISO-8601 strings into dates. -/
theorem claim_C6_transforms_agree (w : WireIndicator) (l : List WireIndicator) :
    fetchIndicatorsTransform w = fetchIndicatorByIdTransform w
    ∧ fetchIndicatorsBody l = l.map fetchIndicatorByIdTransform
    ∧ (fetchIndicatorByIdTransform w).id = w.id
    ∧ (fetchIndicatorByIdTransform w).value = w.value
    ∧ (fetchIndicatorByIdTransform w).type = w.type
    ∧ (fetchIndicatorByIdTransform w).threatLevel = w.threat_level
    ∧ (fetchIndicatorByIdTransform w).score = w.score
    ∧ (fetchIndicatorByIdTransform w).sources = w.sources
    ∧ (fetchIndicatorByIdTransform w).firstSeen = parseDate w.first_seen
    ∧ (fetchIndicatorByIdTransform w).lastSeen = parseDate w.last_seen
    ∧ (fetchIndicatorByIdTransform w).tags = w.tags
    ∧ (fetchIndicatorByIdTransform w).description = w.description
    ∧ (fetchIndicatorByIdTransform w).correlations = w.correlations :=
  ⟨rfl, rfl, rfl, rfl, rfl, rfl, rfl, rfl, rfl, rfl, rfl, rfl, rfl⟩

/-- C8: `apiFetch` turns every non-ok response into a thrown error carrying
the status, and `fetchIndicatorById` therefore also fails on such responses
(including the not-found case); a record is produced only from an ok body. -/
theorem claim_C8_error_on_not_ok {α : Type} (r : HttpResponse α)
    (rw : HttpResponse WireIndicator) :
    (r.ok = false →
      apiFetch r = Except.error (apiErrorMessage r.status r.statusText))
    ∧ (rw.ok = false →
      fetchIndicatorByIdResult rw =
        Except.error (apiErrorMessage rw.status rw.statusText))
    ∧ (r.ok = true → apiFetch r = Except.ok r.body)
    ∧ (rw.ok = true →
      fetchIndicatorByIdResult rw =
        Except.ok (fetchIndicatorByIdTransform rw.body)) := by
  refine ⟨fun h => ?_, fun h => ?_, fun h => ?_, fun h => ?_⟩ <;>
    simp [apiFetch, fetchIndicatorByIdResult, h, Except.map]

/-- Witness for C8 at a concrete 404 response and a concrete ok response. -/
theorem claim_C8_error_on_not_ok_witness :
    apiFetch ⟨false, 404, "Not Found", (0 : Nat)⟩ =
      Except.error (apiErrorMessage 404 "Not Found")
    ∧ fetchIndicatorByIdResult ⟨false, 404, "Not Found", sampleWire⟩ =
      Except.error (apiErrorMessage 404 "Not Found")
    ∧ fetchIndicatorByIdResult ⟨true, 200, "OK", sampleWire⟩ =
      Except.ok (fetchIndicatorByIdTransform sampleWire) :=
  ⟨(claim_C8_error_on_not_ok ⟨false, 404, "Not Found", (0 : Nat)⟩
      ⟨false, 404, "Not Found", sampleWire⟩).1 rfl,
   (claim_C8_error_on_not_ok ⟨false, 404, "Not Found", (0 : Nat)⟩
      ⟨false, 404, "Not Found", sampleWire⟩).2.1 rfl,
   (claim_C8_error_on_not_ok ⟨true, 200, "OK", sampleWire⟩
      ⟨true, 200, "OK", sampleWire⟩).2.2.2 rfl⟩

/-- C9: `toggleRowExpansion` removes the id when present, inserts it when
absent, leaves every other id's membership unchanged, and applied twice
returns the expanded-row set to its original value. -/
theorem claim_C9_toggle_involution (x : String) (S : Finset String) :
    (x ∈ S → toggleRowExpansion x S = S.erase x)
    ∧ (x ∉ S → toggleRowExpansion x S = insert x S)
    ∧ (∀ y, y ≠ x → (y ∈ toggleRowExpansion x S ↔ y ∈ S))
    ∧ toggleRowExpansion x (toggleRowExpansion x S) = S := by
  unfold toggleRowExpansion
  by_cases h : x ∈ S
  · refine ⟨fun _ => by simp [h], fun hn => absurd h hn, fun y hy => ?_, ?_⟩
    · simp [h, Finset.mem_erase, hy]
    · simp [h, Finset.insert_erase h]
  · refine ⟨fun hm => absurd hm h, fun _ => by simp [h], fun y hy => ?_, ?_⟩
    · simp [h, Finset.mem_insert, hy]
    · simp [h, Finset.erase_insert h]

/-- Witness for C9 at a concrete id and expanded-row set. -/
theorem claim_C9_toggle_involution_witness :
    toggleRowExpansion "a" {"a", "b"} = ({"a", "b"} : Finset String).erase "a"
    ∧ ("b" ∈ toggleRowExpansion "a" {"a", "b"} ↔
        "b" ∈ ({"a", "b"} : Finset String))
    ∧ toggleRowExpansion "a" (toggleRowExpansion "a" {"a", "b"}) = {"a", "b"} :=
  ⟨(claim_C9_toggle_involution "a" {"a", "b"}).1 (by decide),
   (claim_C9_toggle_involution "a" {"a", "b"}).2.2.1 "b" (by decide),
   (claim_C9_toggle_involution "a" {"a", "b"}).2.2.2⟩

/-- C10: when a wire feed's `indicator_count` is missing, `null` or `0`,
`fetchFeeds` produces `indicatorCount = 0` (never undefined) and `FeedStatus`
renders the IOC count as `0`; all other fields are carried through unchanged
apart from `last_updated` being parsed into a date. -/
theorem claim_C10_feed_count_defaults (w : WireFeed)
    (h : w.indicator_count = none ∨ w.indicator_count = some 0) :
    (fetchFeedsTransform w).indicatorCount = 0
    ∧ feedStatusIocCount (fetchFeedsTransform w) = 0
    ∧ (fetchFeedsTransform w).id = w.id
    ∧ (fetchFeedsTransform w).name = w.name
    ∧ (fetchFeedsTransform w).description = w.description
    ∧ (fetchFeedsTransform w).url = w.url
    ∧ (fetchFeedsTransform w).status = w.status
    ∧ (fetchFeedsTransform w).reliability = w.reliability
    ∧ (fetchFeedsTransform w).lastUpdated = parseDate w.last_updated := by
  rcases h with h | h <;>
    simp [fetchFeedsTransform, jsOrZeroOpt, jsOrZero, feedStatusIocCount, h]

/-- Witness for C10 at a concrete feed with an absent `indicator_count`. -/
theorem claim_C10_feed_count_defaults_witness :
    (fetchFeedsTransform sampleFeedNoCount).indicatorCount = 0
    ∧ feedStatusIocCount (fetchFeedsTransform sampleFeedNoCount) = 0
    ∧ (fetchFeedsTransform sampleFeedNoCount).name = sampleFeedNoCount.name :=
  ⟨(claim_C10_feed_count_defaults sampleFeedNoCount (Or.inl rfl)).1,
   (claim_C10_feed_count_defaults sampleFeedNoCount (Or.inl rfl)).2.1,
   (claim_C10_feed_count_defaults sampleFeedNoCount (Or.inl rfl)).2.2.2.1⟩

/-! ## Merge Engine idempotence (C1) -/

/-- The merge step `mergeInto` preserves the identity key and the surrogate id. -/
theorem mergeInto_key (cfg : Config) (i : Indicator) (d : Draft) :
    (mergeInto cfg i d).type = i.type ∧ (mergeInto cfg i d).value = i.value
    ∧ (mergeInto cfg i d).id = i.id
    ∧ (mergeInto cfg i d).correlations = i.correlations :=
  ⟨rfl, rfl, rfl, rfl⟩

/-- Re-merging the same draft into an already merged record is a no-op:
sets absorb the duplicate source and tags, `min`/`max` absorb the repeated
timestamp, the description is replaced by the identical value, and the
rescore recomputes the same score. -/
theorem mergeInto_idem (cfg : Config) (i : Indicator) (d : Draft) :
    mergeInto cfg (mergeInto cfg i d) d = mergeInto cfg i d := by
  unfold mergeInto rescore
  rcases hd : d.description with _ | ds
  · simp [hd, Finset.insert_idem, Finset.union_assoc, min_assoc, max_assoc]
  · by_cases hs : ds = "" <;>
      simp [hd, hs, Finset.insert_idem, Finset.union_assoc, min_assoc, max_assoc]

/-- Merging the draft into the record it freshly created is a no-op. -/
theorem mergeInto_fresh (cfg : Config) (d : Draft) (n : Nat) :
    mergeInto cfg (freshIndicator cfg d n) d = freshIndicator cfg d n := by
  unfold mergeInto freshIndicator rescore
  rcases hd : d.description with _ | ds
  · simp [hd]
  · by_cases hs : ds = "" <;> simp [hd, hs]

/-- The merged record still matches the draft's key. -/
theorem draftMatches_mergeInto (cfg : Config) (d : Draft) (i : Indicator) :
    draftMatches d (mergeInto cfg i d) = draftMatches d i := rfl

/-- A keyed update that succeeded is absorbed by a repetition. -/
theorem mergeIntoList_idem (cfg : Config) (d : Draft) :
    ∀ {l l' : List Indicator}, mergeIntoList cfg d l = some l' →
      mergeIntoList cfg d l' = some l' := by
  intro l
  induction l with
  | nil => intro l' h; simp [mergeIntoList] at h
  | cons i rest ih =>
    intro l' h
    by_cases hm : draftMatches d i
    · have h' : mergeInto cfg i d :: rest = l' := by
        simpa [mergeIntoList, hm] using h
      subst h'
      have hm' : draftMatches d (mergeInto cfg i d) = true := hm
      simp [mergeIntoList, hm', mergeInto_idem]
    · cases hrest : mergeIntoList cfg d rest with
      | none => simp [mergeIntoList, hm, hrest] at h
      | some l'' =>
        have h' : i :: l'' = l' := by
          simpa [mergeIntoList, hm, hrest] using h
        subst h'
        simp [mergeIntoList, hm, ih hrest]

/-- When the keyed update fails, no record matches the draft's key. -/
theorem mergeIntoList_none (cfg : Config) (d : Draft) :
    ∀ {l : List Indicator}, mergeIntoList cfg d l = none →
      ∀ i ∈ l, draftMatches d i = false := by
  intro l
  induction l with
  | nil => intro _ i hi; cases hi
  | cons j rest ih =>
    intro h i hi
    by_cases hm : draftMatches d j
    · simp [mergeIntoList, hm] at h
    · cases hrest : mergeIntoList cfg d rest with
      | some l'' => simp [mergeIntoList, hm, hrest] at h
      | none =>
        rcases List.mem_cons.mp hi with rfl | hi'
        · simpa using hm
        · exact ih hrest i hi'

/-- Appending the freshly created record to a store without the key produces
a list on which the keyed update is absorbed. -/
theorem mergeIntoList_append_fresh (cfg : Config) (d : Draft) (n : Nat) :
    ∀ {l : List Indicator}, mergeIntoList cfg d l = none →
      mergeIntoList cfg d (l ++ [freshIndicator cfg d n]) =
        some (l ++ [freshIndicator cfg d n]) := by
  intro l
  induction l with
  | nil =>
    intro _
    have hm : draftMatches d (freshIndicator cfg d n) = true := by
      simp [draftMatches, freshIndicator, rescore]
    simp [mergeIntoList, hm, mergeInto_fresh]
  | cons j rest ih =>
    intro h
    have hm : draftMatches d j = false := mergeIntoList_none cfg d h j (by simp)
    have hrest : mergeIntoList cfg d rest = none := by
      cases hrest : mergeIntoList cfg d rest with
      | none => rfl
      | some l'' => simp [mergeIntoList, hm, hrest] at h
    simp [mergeIntoList, hm, ih hrest]

/-- A store whose record list absorbs the keyed update is a fixed point of
the merge. -/
theorem merge_of_absorbed (cfg : Config) (t : Store) (d : Draft)
    (h : mergeIntoList cfg d t.inds = some t.inds) : t.merge cfg d = t := by
  unfold Store.merge
  rw [h]

/-- After a merge, the store absorbs a repetition of the same keyed update. -/
theorem merge_absorbed (cfg : Config) (s : Store) (d : Draft) :
    mergeIntoList cfg d (s.merge cfg d).inds = some (s.merge cfg d).inds := by
  cases h : mergeIntoList cfg d s.inds with
  | some l =>
    have hinds : (s.merge cfg d).inds = l := by
      unfold Store.merge; rw [h]
    rw [hinds]
    exact mergeIntoList_idem cfg d h
  | none =>
    have hinds : (s.merge cfg d).inds = s.inds ++ [freshIndicator cfg d s.nextId] := by
      unfold Store.merge; rw [h]
    rw [hinds]
    exact mergeIntoList_append_fresh cfg d s.nextId h

/-- Changing only `correlations` commutes with `mergeInto`. -/
theorem mergeInto_set_correlations (cfg : Config) (i : Indicator) (d : Draft)
    (c : Finset Nat) :
    mergeInto cfg { i with correlations := c } d =
      { mergeInto cfg i d with correlations := c } := rfl

/-- An absorbed keyed update stays absorbed after every record's
`correlations` field is rewritten (as the Correlator does). -/
theorem mergeIntoList_map_correlations (cfg : Config) (d : Draft)
    (g : Indicator → Finset Nat) :
    ∀ {l : List Indicator}, mergeIntoList cfg d l = some l →
      mergeIntoList cfg d (l.map fun a => { a with correlations := g a }) =
        some (l.map fun a => { a with correlations := g a }) := by
  intro l
  induction l with
  | nil => intro h; simp [mergeIntoList] at h
  | cons i rest ih =>
    intro h
    by_cases hm : draftMatches d i
    · have h' : mergeInto cfg i d :: rest = i :: rest := by
        simpa [mergeIntoList, hm] using h
      have hi : mergeInto cfg i d = i := (List.cons.injEq _ _ _ _ ▸ h').1
      have hm' : draftMatches d { i with correlations := g i } = true := hm
      have hstep : mergeInto cfg { i with correlations := g i } d =
          { i with correlations := g i } := by
        rw [mergeInto_set_correlations, hi]
      simp [mergeIntoList, hm', hstep]
    · cases hrest : mergeIntoList cfg d rest with
      | none => simp [mergeIntoList, hm, hrest] at h
      | some l'' =>
        have h' : i :: l'' = i :: rest := by
          simpa [mergeIntoList, hm, hrest] using h
        have hl : l'' = rest := (List.cons.injEq _ _ _ _ ▸ h').2
        have hm' : draftMatches d { i with correlations := g i } = false := by
          simpa using hm
        simp [mergeIntoList, hm', ih (hl ▸ hrest)]

/-- C1: merging the identical normalized draft twice — immediately, or with a
correlation pass of a later cycle in between — yields exactly the same final
store (and hence Indicator) state as merging it once: the source and tag sets
absorb the duplicate, `firstSeen`/`lastSeen` are unchanged by the repetition,
and the fresh id counter does not advance again. -/
theorem claim_C1_idempotent_ingestion (cfg : Config) (s : Store) (d : Draft) :
    (s.merge cfg d).merge cfg d = s.merge cfg d
    ∧ (correlatePass (s.merge cfg d)).merge cfg d = correlatePass (s.merge cfg d) := by
  have habs := merge_absorbed cfg s d
  refine ⟨merge_of_absorbed cfg _ d habs, merge_of_absorbed cfg _ d ?_⟩
  show mergeIntoList cfg d
      ((s.merge cfg d).inds.map fun a =>
        { a with correlations := correlationsFor (s.merge cfg d).inds a }) = _
  exact mergeIntoList_map_correlations cfg d
    (correlationsFor (s.merge cfg d).inds) habs

/-! ## Identity uniqueness (C2) -/

/-- A keyed update leaves the list of identity keys unchanged. -/
theorem keys_mergeIntoList (cfg : Config) (d : Draft) :
    ∀ {l l' : List Indicator}, mergeIntoList cfg d l = some l' →
      l'.map keyOf = l.map keyOf := by
  intro l
  induction l with
  | nil => intro l' h; simp [mergeIntoList] at h
  | cons i rest ih =>
    intro l' h
    by_cases hm : draftMatches d i
    · have h' : mergeInto cfg i d :: rest = l' := by
        simpa [mergeIntoList, hm] using h
      subst h'
      simp only [List.map_cons]
      exact congrArg (fun k => k :: List.map keyOf rest) rfl
    · cases hrest : mergeIntoList cfg d rest with
      | none => simp [mergeIntoList, hm, hrest] at h
      | some l'' =>
        have h' : i :: l'' = l' := by
          simpa [mergeIntoList, hm, hrest] using h
        subst h'
        simp [ih hrest]

/-- The Correlator does not touch identity keys. -/
theorem keys_correlatePass (s : Store) :
    (correlatePass s).inds.map keyOf = s.inds.map keyOf := by
  simp only [correlatePass, List.map_map]
  rfl

/-- Key distinctness is an invariant of every reachable store state. -/
theorem reachable_keys_nodup (cfg : Config) :
    ∀ {s : Store}, Reachable cfg s → (s.inds.map keyOf).Nodup := by
  intro s h
  induction h with
  | empty => simp [Store.empty]
  | @merge s d _ ih =>
    cases hml : mergeIntoList cfg d s.inds with
    | some l =>
      have hinds : (s.merge cfg d).inds = l := by
        unfold Store.merge; rw [hml]
      rw [hinds, keys_mergeIntoList cfg d hml]
      exact ih
    | none =>
      have hinds : (s.merge cfg d).inds =
          s.inds ++ [freshIndicator cfg d s.nextId] := by
        unfold Store.merge; rw [hml]
      rw [hinds, List.map_append]
      refine List.nodup_append.mpr ⟨ih, by simp, ?_⟩
      intro k hk
      simp only [List.map_cons, List.map_nil, List.mem_singleton]
      intro hkey
      obtain ⟨i, hi, hik⟩ := List.mem_map.mp hk
      have hmatch : draftMatches d i = true := by
        have h1 : i.type = d.type := by
          have := congrArg Prod.fst (hik.trans hkey)
          simpa [keyOf] using this
        have h2 : i.value = d.value := by
          have := congrArg Prod.snd (hik.trans hkey)
          simpa [keyOf] using this
        simp [draftMatches, h1, h2]
      have := mergeIntoList_none cfg d hml i hi
      simp [hmatch] at this
  | correlate _ ih =>
    rw [keys_correlatePass]
    exact ih

/-- C2: at every reachable store state, no two distinct live records share
the same `(type, value)` identity key. -/
theorem claim_C2_identity_unique (cfg : Config) (s : Store)
    (h : Reachable cfg s) :
    s.inds.Pairwise fun a b => (a.type, a.value) ≠ (b.type, b.value) := by
  have hnd := reachable_keys_nodup cfg h
  have hp := List.pairwise_map.mp hnd
  exact hp.imp fun hab => hab

/-- Witness for C2 at a concrete reachable store built from two merges. -/
theorem claim_C2_identity_unique_witness :
    ((Store.empty.merge sampleConfig draft1).merge sampleConfig draft2).inds.Pairwise
      (fun a b => (a.type, a.value) ≠ (b.type, b.value)) :=
  claim_C2_identity_unique sampleConfig _
    (Reachable.merge draft2 (Reachable.merge draft1 Reachable.empty))

/-! ## Symmetric correlation (C3) -/

/-- The symmetrised relation is symmetric. -/
theorem Related.symm {a b : Indicator} (h : Related a b) : Related b a :=
  Or.symm h

/-- Membership in a recomputed correlation set, unfolded. -/
theorem mem_correlationsFor {l : List Indicator} {a : Indicator} {x : Nat} :
    x ∈ correlationsFor l a ↔
      ∃ c, c ∈ l ∧ c.id ≠ a.id ∧ Related a c ∧ c.id = x := by
  simp only [correlationsFor, List.mem_toFinset, List.mem_map, List.mem_filter,
    decide_eq_true_iff]
  constructor
  · rintro ⟨c, ⟨hc, hne, hrel⟩, hid⟩
    exact ⟨c, hc, hne, hrel, hid⟩
  · rintro ⟨c, hc, hne, hrel, hid⟩
    exact ⟨c, ⟨hc, hne, hrel⟩, hid⟩

/-- Characterisation of a correlation link between two store records when
ids are unique. -/
theorem correlationsFor_char {l : List Indicator}
    (h : (l.map fun i => i.id).Nodup) {u v : Indicator}
    (_hu : u ∈ l) (hv : v ∈ l) :
    v.id ∈ correlationsFor l u ↔ (v.id ≠ u.id ∧ Related u v) := by
  constructor
  · intro hm
    obtain ⟨c, hc, hne, hrel, hid⟩ := mem_correlationsFor.mp hm
    have hcv : c = v := List.inj_on_of_nodup_map h hc hv hid
    subst hcv
    exact ⟨hne, hrel⟩
  · rintro ⟨hne, hrel⟩
    exact mem_correlationsFor.mpr ⟨v, hv, hne, hrel, rfl⟩

/-- C3: after a correlation pass over a store with unique surrogate ids (as
every reachable store has), correlation links are symmetric:
`B.id ∈ A.correlations ↔ A.id ∈ B.correlations` for all indicators A, B in
the store. -/
theorem claim_C3_symmetric_correlation (s : Store)
    (h : (s.inds.map fun i => i.id).Nodup)
    (A B : Indicator)
    (hA : A ∈ (correlatePass s).inds) (hB : B ∈ (correlatePass s).inds) :
    B.id ∈ A.correlations ↔ A.id ∈ B.correlations := by
  simp only [correlatePass] at hA hB
  obtain ⟨a0, ha0, rfl⟩ := List.mem_map.mp hA
  obtain ⟨b0, hb0, rfl⟩ := List.mem_map.mp hB
  show b0.id ∈ correlationsFor s.inds a0 ↔ a0.id ∈ correlationsFor s.inds b0
  rw [correlationsFor_char h ha0 hb0, correlationsFor_char h hb0 ha0]
  constructor
  · rintro ⟨hne, hrel⟩
    exact ⟨hne.symm, hrel.symm⟩
  · rintro ⟨hne, hrel⟩
    exact ⟨hne.symm, hrel.symm⟩

/-- Witness for C3: a url and the domain its hostname names, linked
symmetrically by the pass over the concrete store. -/
theorem claim_C3_symmetric_correlation_witness :
    corrDomInd.id ∈ corrUrlInd.correlations ↔
      corrUrlInd.id ∈ corrDomInd.correlations :=
  claim_C3_symmetric_correlation sampleStore3 (by decide) corrUrlInd corrDomInd
    (by simp [correlatePass, sampleStore3, corrUrlInd, corrDomInd])
    (by simp [correlatePass, sampleStore3, corrUrlInd, corrDomInd])

/-! ## Statistics counts and chart percentages (C4) -/

/-- The five threat levels partition the store: the per-level counts sum to
the number of records. -/
theorem counts_partition (l : List Indicator) :
    countLevel l .critical + countLevel l .high + countLevel l .medium
      + countLevel l .low + countLevel l .info = l.length := by
  induction l with
  | nil => simp [countLevel]
  | cons i t ih =>
    simp only [countLevel, List.countP_cons, List.length_cons]
    simp only [countLevel] at ih
    cases h : i.threatLevel <;> simp [h] <;> omega

/-- C4 (amended): the per-level counts of the statistics value sum to the
total (JS integers of this size are exact doubles), and consequently the
five percentages of `ThreatLevelChart` sum to 100 in exact arithmetic
whenever the total is positive; the binary64 values the program actually
computes can differ from 100 by rounding (see the counterexample). -/
theorem claim_C4_stats_sum (s : Store) (activeFeeds last24hNew : Nat) :
    ((statsOf s activeFeeds last24hNew).criticalCount
        + (statsOf s activeFeeds last24hNew).highCount
        + (statsOf s activeFeeds last24hNew).mediumCount
        + (statsOf s activeFeeds last24hNew).lowCount
        + (statsOf s activeFeeds last24hNew).infoCount
      = (statsOf s activeFeeds last24hNew).totalIndicators)
    ∧ (0 < (statsOf s activeFeeds last24hNew).totalIndicators →
        (chartPercentagesExact (statsOf s activeFeeds last24hNew)).sum = 100) := by
  have hpart := counts_partition s.inds
  refine ⟨hpart, fun ht => ?_⟩
  have ht0 : s.inds.length ≠ 0 := Nat.pos_iff_ne_zero.mp ht
  have htQ : ((s.inds.length : ℚ)) ≠ 0 := Nat.cast_ne_zero.mpr ht0
  have hcast : ((countLevel s.inds .critical : ℚ) + countLevel s.inds .high
      + countLevel s.inds .medium + countLevel s.inds .low
      + countLevel s.inds .info) = (s.inds.length : ℚ) := by
    exact_mod_cast hpart
  simp only [chartPercentagesExact, statsOf, List.sum_cons, List.sum_nil, add_zero]
  field_simp
  linarith [hcast]

/-- Witness for C4 at the concrete two-record store. -/
theorem claim_C4_stats_sum_witness :
    (chartPercentagesExact (statsOf sampleStore3 1 0)).sum = 100 :=
  (claim_C4_stats_sum sampleStore3 1 0).2 (by decide)

/-- The double computed by `(1 / 3) * 100`: `1 / 3` rounds to
`6004799503160661 · 2⁻⁵⁴`, whose product with 100 rounds to
`4691249611844266 · 2⁻⁴⁷ = 33.33333333333332859…`. -/
theorem jsPercent_one_third :
    jsPercent 1 3 = (4691249611844266 : ℚ) / 140737488355328 := by
  have h1 : flPair 1 3 = some ⟨6004799503160661, -2⟩ := by decide
  have h2 : flPair 600479950316066100 18014398509481984 =
      some ⟨4691249611844266, 5⟩ := by decide
  have h3 : (2 : Nat) ^ Int.toNat 54 = 18014398509481984 := by decide
  have h4 : Int.toNat 47 = 47 := by decide
  simp only [jsPercent, h1]
  norm_num
  rw [h3, h2]
  simp only [F64.toRat]
  norm_num
  rw [h4]
  norm_num

/-- The double computed by `(0 / 3) * 100` is exactly `0`. -/
theorem jsPercent_zero_third : jsPercent 0 3 = 0 := by
  have h0 : flPair 0 3 = none := by decide
  simp [jsPercent, h0]

/-- Counterexample to C4 as stated: for the statistics of a store with three
indicators at levels critical, high and medium (counts 1,1,1,0,0, total 3),
the five percentages `ThreatLevelChart` computes in binary64 arithmetic sum
to `14073748835532798 · 2⁻⁴⁷ = 99.99999999999998578…`, not 100, although the
total is positive. -/
theorem claim_C4_counterexample :
    0 < (statsOf sampleStoreThree 0 0).totalIndicators
    ∧ (chartPercentagesFloat (statsOf sampleStoreThree 0 0)).sum ≠ 100 := by
  have hstats : statsOf sampleStoreThree 0 0 =
      ⟨3, 1, 1, 1, 0, 0, 0, 0, 0⟩ := by decide
  refine ⟨by rw [hstats]; norm_num, ?_⟩
  rw [hstats]
  show ¬ ([jsPercent 1 3, jsPercent 1 3, jsPercent 1 3,
      jsPercent 0 3, jsPercent 0 3].sum = 100)
  rw [jsPercent_one_third, jsPercent_zero_third]
  simp only [List.sum_cons, List.sum_nil]
  norm_num

/-! ## `ThreatTable` ordering (C7) -/

/-- Membership in a stable insertion. -/
theorem mem_stableInsert {α : Type} (cmp : α → α → Int) (x a : α) :
    ∀ l : List α, a ∈ stableInsert cmp x l ↔ a = x ∨ a ∈ l := by
  intro l
  induction l with
  | nil => simp [stableInsert]
  | cons y ys ih =>
    by_cases h : cmp x y < 0
    · simp [stableInsert, h, ih]
    · simp [stableInsert, h, ih]
      tauto

/-- Stable insertion preserves sortedness by a key the comparator mirrors. -/
theorem stableInsert_pairwise {α : Type} (k : α → Int) (cmp : α → α → Int)
    (hcmp : ∀ a b, cmp a b < 0 ↔ k b < k a) (x : α) :
    ∀ {l : List α}, l.Pairwise (fun a b => k b ≤ k a) →
      (stableInsert cmp x l).Pairwise (fun a b => k b ≤ k a) := by
  intro l
  induction l with
  | nil => intro _; simp [stableInsert]
  | cons y ys ih =>
    intro hl
    rcases List.pairwise_cons.mp hl with ⟨hy, hys⟩
    by_cases h : cmp x y < 0
    · have hxy : k y < k x := (hcmp x y).mp h
      simp only [stableInsert, if_pos h]
      refine List.pairwise_cons.mpr ⟨?_, hl⟩
      intro z hz
      rcases List.mem_cons.mp hz with rfl | hz'
      · exact le_of_lt hxy
      · exact le_trans (hy z hz') (le_of_lt hxy)
    · have hyx : k x ≤ k y := not_lt.mp fun hc => h ((hcmp x y).mpr hc)
      simp only [stableInsert, if_neg h]
      refine List.pairwise_cons.mpr ⟨?_, ih hys⟩
      intro z hz
      rcases (mem_stableInsert cmp x z ys).mp hz with rfl | hz'
      · exact hyx
      · exact hy z hz'

/-- Stable insertion is a permutation of consing. -/
theorem stableInsert_perm {α : Type} (cmp : α → α → Int) (x : α) :
    ∀ l : List α, (stableInsert cmp x l).Perm (x :: l) := by
  intro l
  induction l with
  | nil => simp [stableInsert]
  | cons y ys ih =>
    by_cases h : cmp x y < 0
    · simp [stableInsert, h]
    · simp only [stableInsert, if_neg h]
      exact (ih.cons y).trans (List.Perm.swap x y ys)

/-- The sort loop keeps its accumulator sorted. -/
theorem jsSort_loop_pairwise {α : Type} (k : α → Int) (cmp : α → α → Int)
    (hcmp : ∀ a b, cmp a b < 0 ↔ k b < k a) :
    ∀ (l acc : List α), acc.Pairwise (fun a b => k b ≤ k a) →
      (List.foldl (fun acc x => stableInsert cmp x acc) acc l).Pairwise
        (fun a b => k b ≤ k a) := by
  intro l
  induction l with
  | nil => intro acc h; exact h
  | cons x xs ih =>
    intro acc h
    exact ih _ (stableInsert_pairwise k cmp hcmp x h)

/-- The sort loop permutes the accumulator and the input. -/
theorem jsSort_loop_perm {α : Type} (cmp : α → α → Int) :
    ∀ (l acc : List α),
      (List.foldl (fun acc x => stableInsert cmp x acc) acc l).Perm (acc ++ l) := by
  intro l
  induction l with
  | nil => intro acc; simp
  | cons x xs ih =>
    intro acc
    refine (ih (stableInsert cmp x acc)).trans ?_
    refine ((stableInsert_perm cmp x acc).append_right xs).trans ?_
    exact List.perm_middle.symm

/-- Inserting into a sorted list appends the new element after all rows of
its own score when it carries the probed score, and leaves that score's rows
untouched otherwise. -/
theorem stableInsert_filter {α : Type} (k : α → Int) (cmp : α → α → Int)
    (hcmp : ∀ a b, cmp a b < 0 ↔ k b < k a) (q : Int) (x : α) :
    ∀ {l : List α}, l.Pairwise (fun a b => k b ≤ k a) →
      (stableInsert cmp x l).filter (fun r => decide (k r = q)) =
        l.filter (fun r => decide (k r = q))
          ++ (if k x = q then [x] else []) := by
  intro l
  induction l with
  | nil =>
    intro _
    by_cases hx : k x = q <;> simp [stableInsert, List.filter_cons, hx]
  | cons y ys ih =>
    intro hl
    rcases List.pairwise_cons.mp hl with ⟨hy, hys⟩
    by_cases h : cmp x y < 0
    · have hxy : k y < k x := (hcmp x y).mp h
      simp only [stableInsert, if_pos h]
      by_cases hx : k x = q
      · have hempty : (y :: ys).filter (fun r => decide (k r = q)) = [] := by
          rw [List.filter_eq_nil_iff]
          intro z hz
          rcases List.mem_cons.mp hz with rfl | hz'
          · simp only [decide_eq_true_iff]
            omega
          · have hzk : k z ≤ k y := hy z hz'
            simp only [decide_eq_true_iff]
            omega
        simp [List.filter_cons, hx, hempty]
      · simp [List.filter_cons, hx]
    · simp only [stableInsert, if_neg h]
      by_cases hpy : k y = q <;>
        simp [List.filter_cons, hpy, ih hys]

/-- The sort loop preserves, score by score, the relative order of rows. -/
theorem jsSort_loop_filter {α : Type} (k : α → Int) (cmp : α → α → Int)
    (hcmp : ∀ a b, cmp a b < 0 ↔ k b < k a) (q : Int) :
    ∀ (l acc : List α), acc.Pairwise (fun a b => k b ≤ k a) →
      (List.foldl (fun acc x => stableInsert cmp x acc) acc l).filter
          (fun r => decide (k r = q)) =
        acc.filter (fun r => decide (k r = q))
          ++ l.filter (fun r => decide (k r = q)) := by
  intro l
  induction l with
  | nil => intro acc _; simp
  | cons x xs ih =>
    intro acc h
    rw [List.foldl_cons, ih _ (stableInsert_pairwise k cmp hcmp x h),
      stableInsert_filter k cmp hcmp q x h]
    by_cases hx : k x = q <;> simp [List.filter_cons, hx]

/-- The default comparator compares exactly by score, descending. -/
theorem jsComparator_default_lt (a b : ThreatIndicator) :
    jsComparator .score .desc a b < 0 ↔ b.score < a.score := by
  have h : jsComparator .score .desc a b = -(a.score - b.score) := rfl
  rw [h]
  omega

/-- Counterexample to C7 as stated: two equal-score rows arrive in the order
`id = "z"`, `id = "a"`; the default sort leaves them in input order, so the
displayed list is not ordered by score descending with id as tiebreaker. -/
theorem claim_C7_counterexample :
    ¬ (sortedIndicatorsDefault [rowZ, rowA]).Pairwise
        (fun a b => b.score < a.score ∨ (a.score = b.score ∧ a.id ≤ b.id)) := by
  intro h
  have hsorted : sortedIndicatorsDefault [rowZ, rowA] = [rowZ, rowA] := rfl
  rw [hsorted] at h
  have hrel := (List.pairwise_cons.mp h).1 rowA (by simp)
  rcases hrel with hlt | ⟨_, hle⟩
  · simp [rowA, rowZ] at hlt
  · have haz : ("a" : String) < "z" := by
      rw [String.lt_iff_toList_lt]
      decide
    have hza : ¬ (("z" : String) ≤ "a") := not_le.mpr haz
    exact hza (by simpa [rowZ, rowA] using hle)

/-- C7 (amended): for a fixed list, the default-setting display order is
sorted by score descending, is a permutation of the input (pagination over
unchanged data neither skips nor duplicates rows), and equal-score rows keep
their input order — the tiebreaker is input position via the stable sort,
not id; determinism over an unchanged list is immediate since the sort is a
pure function of the list. -/
theorem claim_C7_amended_stable_sort (inds : List ThreatIndicator) :
    (sortedIndicatorsDefault inds).Pairwise (fun a b => b.score ≤ a.score)
    ∧ (sortedIndicatorsDefault inds).Perm inds
    ∧ ∀ q : Int,
        (sortedIndicatorsDefault inds).filter (fun r => decide (r.score = q)) =
          inds.filter (fun r => decide (r.score = q)) := by
  simp only [sortedIndicatorsDefault, sortedIndicators, jsSort]
  refine ⟨?_, ?_, ?_⟩
  · exact jsSort_loop_pairwise (fun r => r.score) _ jsComparator_default_lt
      inds [] (by simp)
  · simpa using jsSort_loop_perm (jsComparator .score .desc) inds []
  · intro q
    simpa using jsSort_loop_filter (fun r => r.score) _ jsComparator_default_lt
      q inds [] (by simp)

end ThreatRadar
